import Mathlib

/-!
Verification development for the ProjectMnemosyne marketplace scripts.

The Python scripts under scripts/ are shallowly embedded below: pure text
transformations become Lean functions on String / List Char, filesystem
access becomes explicit passing of an FsNode tree, and Python exceptions
become an Except monad.  Regex searches are embedded by their operational
semantics (leftmost match with the backtracking behaviour of Python's re
module, worked out per pattern and documented at each definition).
-/

namespace Mnemosyne

/-! ## Python string primitives -/

/-- Python whitespace characters for str.strip / regex \s (ASCII part;
the rare non-ASCII Unicode whitespace is not modelled). -/
def pyIsSpace (c : Char) : Bool :=
  c = ' ' || c = '\t' || c = '\n' || c = '\r' || c = '\x0b' || c = '\x0c'

/-- Index of the first occurrence of `sep` in `s` at or after offset `i`
(the offset accumulator), scanning left to right. -/
def findSubAux (sep : List Char) : List Char → Nat → Option Nat
  | s, i =>
    if sep.isPrefixOf s then some i
    else
      match s with
      | [] => none
      | _ :: rest => findSubAux sep rest (i + 1)

/-- Index of the leftmost occurrence of `sep` in `s` (Python str.find). -/
def findSub (sep s : List Char) : Option Nat := findSubAux sep s 0

/-- Python's `needle in hay` substring test. -/
def hasSub (needle hay : List Char) : Bool := (findSub needle hay).isSome

/-- Python's `needle in hay` at the String level. -/
def strContains (hay needle : String) : Bool := hasSub needle.data hay.data

/-- Python str.startswith. -/
def strStarts (s pre : String) : Bool := pre.data.isPrefixOf s.data

/-- Python str.split(sep) for a non-empty separator, with explicit fuel so
that the definition reduces by computation: split at each leftmost
non-overlapping occurrence.  The initial fuel s.length + 1 always
suffices, since each found separator occurrence consumes at least one
character. -/
def pySplitChF (sep : List Char) : Nat → List Char → List (List Char)
  | 0, s => [s]
  | fuel + 1, s =>
    match findSub sep s with
    | none => [s]
    | some i => s.take i :: pySplitChF sep fuel (s.drop (i + sep.length))

/-- Python str.split(sep) for a non-empty separator. -/
def pySplitCh (sep s : List Char) : List (List Char) :=
  pySplitChF sep (s.length + 1) s

/-- Python str.split(sep) at the String level. -/
def pySplitS (sep s : String) : List String :=
  (pySplitCh sep.data s.data).map (⟨·⟩)

/-- Python str.replace(old, new) for non-empty `old`. -/
def pyReplace (s old new : String) : String :=
  ⟨(new.data).intercalate (pySplitCh old.data s.data)⟩

/-- Python str.rstrip() on character lists. -/
def pyRstripCh (cs : List Char) : List Char :=
  (cs.reverse.dropWhile pyIsSpace).reverse

/-- Python str.strip() on character lists. -/
def pyStripCh (cs : List Char) : List Char :=
  pyRstripCh (cs.dropWhile pyIsSpace)

/-- Python str.strip() at the String level. -/
def pyStrip (s : String) : String := ⟨pyStripCh s.data⟩

/-- Python str.rstrip() at the String level. -/
def pyRstrip (s : String) : String := ⟨pyRstripCh s.data⟩

/-- Python string comparison `a < b`: lexicographic by code point. -/
def strLtB : List Char → List Char → Bool
  | [], [] => false
  | [], _ :: _ => true
  | _ :: _, [] => false
  | a :: as, b :: bs =>
    if a.toNat < b.toNat then true
    else if b.toNat < a.toNat then false
    else strLtB as bs

/-- Python string comparison `a <= b`. -/
def pyStrLe (a b : String) : Bool := !(strLtB b.data a.data)

/-- pyStrLe as a decidable relation, for use with List.insertionSort. -/
def pyStrLeP (a b : String) : Prop := pyStrLe a b = true

instance : DecidableRel pyStrLeP := fun _ _ => inferInstanceAs (Decidable (_ = true))

/-- Python str.split('\n'): the lines of a document. -/
def splitLines (s : String) : List String :=
  pySplitS "\n" s

/-- Python '\n'.join. -/
def joinLines (ls : List String) : String :=
  ⟨('\n'.toString.data).intercalate (ls.map (·.data))⟩

/-! ## JSON values

JSON values as produced by Python's json.load.  Numbers are modelled as
integers (no claim involves a fractional number) and objects as association
lists with the unique keys Python's parser produces. -/

inductive Json where
  | null
  | bool (b : Bool)
  | num (n : Int)
  | str (s : String)
  | arr (elems : List Json)
  | obj (fields : List (String × Json))

/-- Key lookup in a JSON object, `data["k"]` / `"k" in data`. -/
def lookupField (fields : List (String × Json)) (k : String) : Option Json :=
  (fields.find? (fun f => f.1 == k)).map (·.2)

/-- Python exceptions that the scripts can raise (uncaught). -/
inductive PyErr where
  | attributeError
  | typeError
  | fileNotFoundError
  | notADirectoryError
  | isADirectoryError
deriving DecidableEq

/-! ## Filesystem model

A file is modelled by its text together with the result of parsing that
text as JSON (`none` when the text is not valid JSON); the embedding does
not include a JSON parser, so the parse result is carried alongside the
text.  Directory entries are listed in directory-listing order; OS-level
read failures are not modelled. -/

inductive FsNode where
  | file (text : String) (json : Option Json)
  | dir (entries : List (String × FsNode))

def FsNode.isDir : FsNode → Bool
  | .dir _ => true
  | .file _ _ => false

/-- Resolve one path component inside a node. -/
def FsNode.child : FsNode → String → Option FsNode
  | .dir es, name => (es.find? (fun e => e.1 == name)).map (·.2)
  | .file _ _, _ => none

/-- Resolve a relative path; `some` exactly when Path.exists() holds. -/
def FsNode.childPath : FsNode → List String → Option FsNode
  | n, [] => some n
  | n, p :: rest =>
    match n.child p with
    | none => none
    | some c => c.childPath rest

/-! ## Shared text-position helpers

The fix scripts' regexes anchor at line starts (re.MULTILINE `^`): a
position is a line start when it is 0 or follows a newline. -/

/-- The Failed Attempts heading as a character list. -/
def faHeadingCh : List Char := "## Failed Attempts".data

/-- The bare "##" separator as a character list. -/
def hhCh : List Char := "##".data

/-- Whether position j of s is a line start (re.MULTILINE ^). -/
def isLineStart (s : List Char) (j : Nat) : Bool :=
  decide (j = 0) || (s[j-1]? == some '\n')

/-- The first position at or after i where a line starts with "##"
(the `^##` of the section regexes; a "###" line also matches). -/
def idxLineHHFrom (s : List Char) (i : Nat) : Option Nat :=
  ((List.range (s.length + 1)).filter
    (fun j => decide (i ≤ j) && isLineStart s j && hhCh.isPrefixOf (s.drop j))).head?

/-- The position of the first '\n' at or after i, or s.length when none
remains (where a lazy `.*?$` match ends, with or without re.DOTALL). -/
def idxNlFrom (s : List Char) (i : Nat) : Nat :=
  i + (s.drop i).findIdx (fun c => c == '\n')

/-- The length of the maximal whitespace run starting at position i
(a greedy regex `\s*`). -/
def wsRunLen (s : List Char) (i : Nat) : Nat :=
  ((s.drop i).takeWhile pyIsSpace).length

/-- Python sep.join(...). -/
def joinWith (sep : String) (ls : List String) : String :=
  ⟨(sep.data).intercalate (ls.map (·.data))⟩

/-- Whether some line of the document starts with `pre` (re.search of an
`^pre` pattern under re.MULTILINE). -/
def hasLinePre (content pre : String) : Bool :=
  (splitLines content).any (fun l => strStarts l pre)

/-! ## scripts/validate_plugins.py -/

namespace ValidatePlugins

def MIN_DESCRIPTION_LENGTH : Nat := 20

/-- VALID_CATEGORIES; a Python set, listed here in source order (set
iteration order never matters: the script only tests membership and
joins the sorted set). -/
def VALID_CATEGORIES : List String :=
  ["training", "evaluation", "optimization", "debugging",
   "architecture", "tooling", "ci-cd", "testing"]

def REQUIRED_PLUGIN_FIELDS : List String :=
  ["name", "version", "description", "category", "date", "tags"]

/-- Per-plugin validation result (dataclass ValidationResult); the path is
modelled by the plugin directory name. -/
structure ValidationResult where
  pluginName : String
  is_valid : Bool
  errors : List String
  warnings : List String

/-- Python sorted() on strings: code-point lexicographic order. -/
def pySorted (l : List String) : List String :=
  l.insertionSort pyStrLeP

/-- Character class [a-z0-9-] of the name regex. -/
def nameChar (c : Char) : Bool :=
  ('a' ≤ c && c ≤ 'z') || ('0' ≤ c && c ≤ '9') || c = '-'

/-- In Python, a fullmatch-style pattern `^...$` (without re.MULTILINE)
also matches when a single trailing newline follows: `$` matches just
before a final '\n'.  This strips that optional final newline. -/
def dollarBody (cs : List Char) : List Char :=
  if cs.getLast? = some '\n' then cs.dropLast else cs

/-- re.match(r"^[a-z0-9-]+$", s) as a Bool. -/
def reMatchName (s : String) : Bool :=
  let b := dollarBody s.data
  !b.isEmpty && b.all nameChar

/-- ASCII digit; approximates the regex \d (Python's \d also accepts
non-ASCII Unicode digits, which no claim involves). -/
def digitCh (c : Char) : Bool := c.isDigit

/-- Shape \d{4}-\d{2}-\d{2} as an exact match. -/
def dateShape : List Char → Bool
  | [y1, y2, y3, y4, h1, m1, m2, h2, d1, d2] =>
    digitCh y1 && digitCh y2 && digitCh y3 && digitCh y4 && h1 = '-' &&
    digitCh m1 && digitCh m2 && h2 = '-' && digitCh d1 && digitCh d2
  | _ => false

/-- re.match(r"^\d{4}-\d{2}-\d{2}$", s) as a Bool. -/
def reMatchDate (s : String) : Bool :=
  dateShape (dollarBody s.data)

/-- Python len() on a JSON value: defined on str / list / dict, a
TypeError otherwise. -/
def pyLen : Json → Except PyErr Nat
  | .str s => .ok s.length
  | .arr l => .ok l.length
  | .obj l => .ok l.length
  | _ => throw .typeError

/-- f-string rendering of a JSON scalar (how Python interpolates the
category value into the error message). -/
def pyStrOf : Json → String
  | .null => "None"
  | .bool true => "True"
  | .bool false => "False"
  | .num n => toString n
  | .str s => s
  | .arr _ => "<list>"
  | .obj _ => "<dict>"

/-- Name-format check (lines 96-100).  re.match on a non-string first
argument raises TypeError. -/
def checkName (fields : List (String × Json)) : Except PyErr (List String) :=
  match lookupField fields "name" with
  | none => .ok []
  | some (.str n) =>
    .ok (if reMatchName n then []
         else ["Invalid name format \x27" ++ n ++
               "\x27 (use lowercase, numbers, hyphens)"])
  | some _ => throw .typeError

/-- Description-length check (lines 102-106). -/
def checkDescription (fields : List (String × Json)) : Except PyErr (List String) := do
  match lookupField fields "description" with
  | none => return []
  | some d =>
    let n ← pyLen d
    return (if n < MIN_DESCRIPTION_LENGTH then
              ["Description too short (" ++ toString n ++ " chars, min " ++
               toString MIN_DESCRIPTION_LENGTH ++ ")"]
            else [])

def invalidCategoryMsg (rendered : String) : String :=
  "Invalid category \x27" ++ rendered ++ "\x27. Valid: " ++
    ", ".intercalate (pySorted VALID_CATEGORIES)

/-- Category check (lines 108-112).  Membership of an unhashable value
(list/dict) in a Python set raises TypeError; other non-strings are
hashable and simply not members. -/
def checkCategory (fields : List (String × Json)) : Except PyErr (List String) :=
  match lookupField fields "category" with
  | none => .ok []
  | some (.arr _) | some (.obj _) => throw .typeError
  | some (.str s) =>
    .ok (if VALID_CATEGORIES.contains s then [] else [invalidCategoryMsg s])
  | some v => .ok [invalidCategoryMsg (pyStrOf v)]

/-- Date-format check (lines 114-118). -/
def checkDate (fields : List (String × Json)) : Except PyErr (List String) :=
  match lookupField fields "date" with
  | none => .ok []
  | some (.str d) =>
    .ok (if reMatchDate d then []
         else ["Invalid date format \x27" ++ d ++ "\x27 (use YYYY-MM-DD)"])
  | some _ => throw .typeError

/-- Tags check (lines 120-125): error when not a list, warning when an
empty list.  Returns (errors, warnings). -/
def checkTags (fields : List (String × Json)) : List String × List String :=
  match lookupField fields "tags" with
  | none => ([], [])
  | some (.arr l) =>
    ([], if l.length = 0 then ["No tags provided - reduces searchability"] else [])
  | some _ => (["tags must be a list"], [])

/-- validate_plugin_json (lines 72-127).  Returns (errors, warnings, data).
Opening a directory raises IsADirectoryError; `data.keys()` on a parsed
non-dict raises AttributeError (line 92), uncaught by the script. -/
def validate_plugin_json (plugin_dir : FsNode) :
    Except PyErr (List String × List String × Json) := do
  match plugin_dir.childPath [".claude-plugin", "plugin.json"] with
  | none => return (["Missing .claude-plugin/plugin.json"], [], .obj [])
  | some (.dir _) => throw .isADirectoryError
  | some (.file _ none) =>
    return (["Invalid JSON in plugin.json: <JSONDecodeError>"], [], .obj [])
  | some (.file _ (some data)) =>
    match data with
    | .obj fields =>
      let keys := fields.map (·.1)
      let missing := pySorted (REQUIRED_PLUGIN_FIELDS.filter (fun f => !keys.contains f))
      let missingErrs :=
        if missing.isEmpty then []
        else ["Missing required fields: " ++ ", ".intercalate missing]
      let nameErrs ← checkName fields
      let descErrs ← checkDescription fields
      let catErrs ← checkCategory fields
      let dateErrs ← checkDate fields
      let (tagErrs, tagWarns) := checkTags fields
      return (missingErrs ++ nameErrs ++ descErrs ++ catErrs ++ dateErrs ++ tagErrs,
              tagWarns, data)
    | _ => throw .attributeError

/-- The five required section markers with their display names (lines
159-165). -/
def requiredSections : List (String × String) :=
  [("## Overview", "Overview table"),
   ("## When to Use", "When to Use section"),
   ("## Verified Workflow", "Verified Workflow section"),
   ("## Failed Attempts", "Failed Attempts section (REQUIRED)"),
   ("## Results", "Results & Parameters section")]

/-- The section loop (lines 167-172): presence is a substring test on the
whole document; a missing Failed Attempts marker is an error, the others
are warnings. -/
def sectionChecks (content : String) : List (String × String) → List String × List String
  | [] => ([], [])
  | (marker, nm) :: rest =>
    let prev := sectionChecks content rest
    if strContains content marker then prev
    else if strContains nm "Failed Attempts" then (("Missing " ++ nm) :: prev.1, prev.2)
    else (prev.1, ("Missing " ++ nm) :: prev.2)

/-- content.split("## Failed Attempts")[1].split("##")[0] (line 176): the
text between the first and second occurrences of the heading string, cut
at the first occurrence of "##" inside it.  The [1] index exists because
the caller has checked that the heading occurs (the getD default is
unreachable). -/
def failedAttemptsExamined (content : String) : String :=
  let part1 := ((pySplitS "## Failed Attempts" content).get? 1).getD ""
  ((pySplitS "##" part1).head?).getD part1

def pipeWarning : String := "Failed Attempts section should contain a table"

def fmMissingMsg : String := "SKILL.md missing YAML frontmatter (must start with ---)"

/-- The frontmatter check (lines 155-156). -/
def fmErrsOf (content : String) : List String :=
  if strStarts content "---" then [] else [fmMissingMsg]

/-- The Failed Attempts pipe check (lines 174-178). -/
def pipeCheckWarns (content : String) : List String :=
  if strContains content "## Failed Attempts" then
    if strContains (failedAttemptsExamined content) "|" then [] else [pipeWarning]
  else []

/-- The pure content checks of validate_skill_md (lines 154-180):
frontmatter, required sections, Failed Attempts pipe check. -/
def skillContentChecks (content : String) : List String × List String :=
  (fmErrsOf content ++ (sectionChecks content requiredSections).1,
   (sectionChecks content requiredSections).2 ++ pipeCheckWarns content)

/-- skills_dir.glob("*/SKILL.md") (line 141): the SKILL.md children of the
immediate subdirectories, in listing order; globbing a non-directory
yields nothing. -/
def globSkillFiles : FsNode → List FsNode
  | .file _ _ => []
  | .dir es => es.filterMap fun e =>
      match e.2 with
      | .dir sub => ((sub.find? (fun c => c.1 == "SKILL.md")).map (·.2))
      | .file _ _ => none

/-- validate_skill_md (lines 130-180).  The plugin_data argument of the
source is unused by its body and omitted.  Reading a directory named
SKILL.md raises IsADirectoryError, caught by the except branch. -/
def validate_skill_md (plugin_dir : FsNode) : List String × List String :=
  match plugin_dir.child "skills" with
  | none => (["Missing skills/ directory"], [])
  | some sd =>
    match globSkillFiles sd with
    | [] => (["No SKILL.md found in skills/ subdirectories"], [])
    | .dir _ :: _ => (["Failed to read SKILL.md: <IsADirectoryError>"], [])
    | .file content _ :: _ => skillContentChecks content

/-- validate_plugin (lines 183-203). -/
def validate_plugin (name : String) (plugin_dir : FsNode) :
    Except PyErr ValidationResult := do
  let (jsonErrs, jsonWarns, _data) ← validate_plugin_json plugin_dir
  let (skillErrs, skillWarns) := validate_skill_md plugin_dir
  let errors := jsonErrs ++ skillErrs
  return { pluginName := name,
           is_valid := errors.isEmpty,
           errors := errors,
           warnings := jsonWarns ++ skillWarns }

/-- The inner loop of find_plugins (lines 216-224): plugin directories of
one category, in listing order. -/
def pluginsInCategory (node : FsNode) : List (String × FsNode) :=
  match node with
  | .file _ _ => []
  | .dir entries => entries.filterMap fun e =>
      if !e.2.isDir then none
      else if strStarts e.1 "." then none
      else if (e.2.child ".claude-plugin").isSome || (e.2.child "skills").isSome then
        some (e.1, e.2)
      else none

/-- find_plugins (lines 206-226).  Path.iterdir on a path that does not
exist raises FileNotFoundError, and on a file NotADirectoryError; the
function has no handler for either. -/
def find_plugins : Option FsNode → Except PyErr (List (String × FsNode))
  | none => throw .fileNotFoundError
  | some (.file _ _) => throw .notADirectoryError
  | some (.dir cats) =>
    .ok ((cats.filter (fun c => c.2.isDir && !strStarts c.1 ".")).flatMap
           (fun c => pluginsInCategory c.2))

/-- The validation loop of main (line 245). -/
def validateAll : List (String × FsNode) → Except PyErr (List ValidationResult)
  | [] => .ok []
  | p :: rest => do
    let r ← validate_plugin p.1 p.2
    let rs ← validateAll rest
    return r :: rs

/-- main (lines 229-270): the root is `none` when the plugins directory
does not exist (main reports it and returns 1 before calling
find_plugins); otherwise exit is 1 iff some plugin failed. -/
def main (plugins_root : Option FsNode) : Except PyErr Int :=
  match plugins_root with
  | none => .ok 1
  | some root => do
    let plugins ← find_plugins (some root)
    if plugins.isEmpty then return 0
    else
      let results ← validateAll plugins
      let failed := (results.filter (fun r => !r.is_valid)).length
      return (if failed > 0 then 1 else 0)

end ValidatePlugins

/-! ## scripts/generate_marketplace.py -/

namespace GenerateMarketplace

/-- Setting a key on a Python dict: overwrite in place when present,
append otherwise (keys are unique, as Python's JSON parser produces). -/
def setKey (fields : List (String × Json)) (k : String) (v : Json) :
    List (String × Json) :=
  if (fields.find? (fun f => f.1 == k)).isSome then
    fields.map (fun f => if f.1 == k then (k, v) else f)
  else fields ++ [(k, v)]

/-- load_plugin_metadata (lines 23-43).  `parentName` is
plugin_dir.parent.name (the category directory) and `pathStr` is
str(plugin_dir).  Returns .ok none both when the manifest file is absent
and when its JSON does not parse (the JSONDecodeError handler also
returns None).  A manifest that parses to a non-dict raises an uncaught
TypeError at the `data["category"]`/`data["path"]` assignment (or at the
`in` test for non-iterable values). -/
def load_plugin_metadata (parentName pathStr : String) (plugin_dir : FsNode) :
    Except PyErr (Option Json) :=
  match plugin_dir.childPath [".claude-plugin", "plugin.json"] with
  | none => .ok none
  | some (.dir _) => throw .isADirectoryError
  | some (.file _ none) => .ok none
  | some (.file _ (some data)) =>
    match data with
    | .obj fields =>
      let fields1 :=
        if (lookupField fields "category").isSome then fields
        else fields ++ [("category", .str parentName)]
      .ok (some (.obj (setKey fields1 "path" (.str pathStr))))
    | _ => throw .typeError

/-- The inner loop of find_plugins (lines 56-64), marketplace variant:
a plugin directory must hold .claude-plugin/plugin.json itself. -/
def pluginsInCategory (catName : String) (node : FsNode) :
    List (String × String × FsNode) :=
  match node with
  | .file _ _ => []
  | .dir entries => entries.filterMap fun e =>
      if !e.2.isDir then none
      else if strStarts e.1 "." then none
      else if (e.2.childPath [".claude-plugin", "plugin.json"]).isSome then
        some (catName, e.1, e.2)
      else none

/-- find_plugins (lines 46-66): (category, name, node) triples in listing
order.  As in the validator, iterdir raises on a missing or non-directory
root. -/
def find_plugins : Option FsNode → Except PyErr (List (String × String × FsNode))
  | none => throw .fileNotFoundError
  | some (.file _ _) => throw .notADirectoryError
  | some (.dir cats) =>
    .ok ((cats.filter (fun c => c.2.isDir && !strStarts c.1 ".")).flatMap
           (fun c => pluginsInCategory c.1 c.2))

/-- One entry of the marketplace index (the dict of lines 78-85, with its
fixed keys as fields). -/
structure MarketplaceEntry where
  name : Json
  description : Json
  version : Json
  source : Json
  category : Json
  tags : Json

/-- The top-level marketplace object (lines 92-101). -/
structure Marketplace where
  name : String
  ownerName : String
  ownerUrl : String
  description : String
  version : String
  plugins : List MarketplaceEntry

/-- The entry-building loop (lines 73-86).  The plugins directory
argument is modelled as a single path component `pdn` (default
"plugins"), so that str(plugin_dir) and the source path agree with the
source's Path arithmetic.  `if metadata:` is Python truthiness: an empty
dict is skipped. -/
def buildEntries (pdn : String) :
    List (String × String × FsNode) → Except PyErr (List MarketplaceEntry)
  | [] => .ok []
  | (cat, nm, node) :: rest => do
    let md ← load_plugin_metadata cat (pdn ++ "/" ++ cat ++ "/" ++ nm) node
    let rest' ← buildEntries pdn rest
    match md with
    | some (.obj fields) =>
      if fields.isEmpty then .ok rest'
      else
        .ok ({ name := (lookupField fields "name").getD (.str nm),
               description := (lookupField fields "description").getD (.str ""),
               version := (lookupField fields "version").getD (.str "1.0.0"),
               source := .str ("./" ++ pdn ++ "/" ++ cat ++ "/" ++ nm),
               category := (lookupField fields "category").getD (.str "unknown"),
               tags := (lookupField fields "tags").getD (.arr []) } :: rest')
    | _ => .ok rest'

/-- The string under a Json value, for key extraction ("" for non-strings;
only used where all keys are strings). -/
def jstrD : Json → String
  | .str s => s
  | _ => ""

/-- The sort key (line 89): the (category, name) pair. -/
def entryKeyStr (e : MarketplaceEntry) : String × String :=
  (jstrD e.category, jstrD e.name)

/-- Lexicographic comparison of (category, name) pairs by Python string
order. -/
def pairLeB (x y : String × String) : Bool :=
  if strLtB x.1.data y.1.data then true
  else if strLtB y.1.data x.1.data then false
  else pyStrLe x.2 y.2

/-- The sort order of the plugin entries. -/
def entryLe (a b : MarketplaceEntry) : Prop :=
  pairLeB (entryKeyStr a) (entryKeyStr b) = true

instance : DecidableRel entryLe := fun _ _ => inferInstanceAs (Decidable (_ = true))

/-- Whether both sort-key values of an entry are strings. -/
def isStrKeyed (e : MarketplaceEntry) : Bool :=
  match e.category, e.name with
  | .str _, .str _ => true
  | _, _ => false

/-- plugin_entries.sort(key=lambda x: (x["category"], x["name"])) (line
89).  Python's list.sort compares the key tuples and raises TypeError
when it compares a non-string against a string; whether a given list with
a non-string key raises depends on Timsort's comparison schedule, so the
embedding conservatively raises whenever any key is not a string.  On
all-string keys the embedding is a stable ascending sort, as Timsort is
(and no theorem below depends on the order among equal keys). -/
def pySortEntries (l : List MarketplaceEntry) : Except PyErr (List MarketplaceEntry) :=
  if l.all isStrKeyed then .ok (l.insertionSort entryLe) else throw .typeError

/-- generate_marketplace (lines 69-103). -/
def generate_marketplace (pdn : String) (root : Option FsNode) :
    Except PyErr Marketplace := do
  let plugins ← find_plugins root
  let entries ← buildEntries pdn plugins
  let sorted ← pySortEntries entries
  return { name := "ProjectMnemosyne",
           ownerName := "HomericIntelligence",
           ownerUrl := "https://github.com/HomericIntelligence",
           description := "Skills marketplace for the HomericIntelligence agentic ecosystem",
           version := "1.0.0",
           plugins := sorted }

end GenerateMarketplace

/-! ## scripts/fix_validation_warnings.py -/

namespace FixValidationWarnings

/-- The character class [0-9-] of the frontmatter date regex. -/
def dateCharB (c : Char) : Bool := c.isDigit || c = '-'

/-- A quote character, for the optional `["\']?` of the date regex. -/
def quoteB (c : Char) : Bool := c = '"' || c = '\x27'

/-- One candidate position of the regex `^date:\s*["\']?([0-9-]+)["\']?`
(re.MULTILINE): at a line start with literal "date:", skip the maximal
whitespace run (`\s*` is greedy and whitespace holds no digit, hyphen or
quote, so backtracking into it can never succeed), take an optional
quote when a date character follows it, then the maximal [0-9-]+ run;
the trailing optional quote never affects the group. -/
def dateMatchAt (s : List Char) (p : Nat) : Option (List Char) :=
  if isLineStart s p && ("date:".data).isPrefixOf (s.drop p) then
    let pos := p + 5 + wsRunLen s (p + 5)
    match s[pos]? with
    | none => none
    | some c =>
      if quoteB c then
        match s[pos+1]? with
        | some c2 =>
          if dateCharB c2 then some ((s.drop (pos+1)).takeWhile dateCharB) else none
        | none => none
      else if dateCharB c then some ((s.drop pos).takeWhile dateCharB)
      else none
  else none

/-- extract_frontmatter_date (lines 30-33): the group of the leftmost
position where the date pattern matches, else "N/A". -/
def extract_frontmatter_date (content : String) : String :=
  let s := content.data
  match ((List.range (s.length + 1)).filterMap (dateMatchAt s)).head? with
  | none => "N/A"
  | some g => ⟨g⟩

/-- The line loop of extract_objective (lines 44-56), with state
(in_frontmatter, past_title) and the accumulated stripped lines; the
loop breaks once the joined accumulator exceeds 100 characters. -/
def extractObjectiveGo : List String → Bool → Bool → List String → List String
  | [], _, _, acc => acc
  | line :: rest, inFm, pastTitle, acc =>
    if pyStrip line = "---" then extractObjectiveGo rest (!inFm) pastTitle acc
    else if inFm then extractObjectiveGo rest inFm pastTitle acc
    else if strStarts line "# " then extractObjectiveGo rest inFm true acc
    else if pastTitle && !(pyStrip line = "") && !strStarts line "#" then
      let acc2 := acc ++ [pyStrip line]
      if (joinWith " " acc2).length > 100 then acc2
      else extractObjectiveGo rest inFm pastTitle acc2
    else extractObjectiveGo rest inFm pastTitle acc

/-- extract_objective (lines 36-61). -/
def extract_objective (content : String) : String :=
  let objective := joinWith " " (extractObjectiveGo (splitLines content) false false [])
  let objective :=
    if objective.length > 150 then ⟨objective.data.take 147 ++ "...".data⟩ else objective
  if objective = "" then "Document workflow and best practices" else objective

/-- has_overview_section (lines 64-66): re.search(r'^## Overview', M). -/
def has_overview_section (content : String) : Bool :=
  hasLinePre content "## Overview"

/-- has_verified_workflow_section (lines 69-71). -/
def has_verified_workflow_section (content : String) : Bool :=
  hasLinePre content "## Verified Workflow"

/-- has_results_section (lines 74-76). -/
def has_results_section (content : String) : Bool :=
  hasLinePre content "## Results"

/-- The end of a `^## Failed Attempts\s*$` match starting at p: the
greedy `\s*` consumes the maximal whitespace run after the heading text
and backtracks to the last position where `$` holds — the end of string
when the run reaches it, else the last newline inside the run; none when
the run ends mid-line before any newline (no match at p). -/
def fvHeadingEnd (s : List Char) (p : Nat) : Option Nat :=
  let j0 := p + faHeadingCh.length
  let w := wsRunLen s j0
  if j0 + w = s.length then some s.length
  else
    ((List.range (j0 + w)).filter (fun j => decide (j0 ≤ j) && (s[j]? == some '\n'))).getLast?

/-- A candidate for re.search(r'^## Failed Attempts\s*$', M) (line 146). -/
def fvFAHeadP (s : List Char) (p : Nat) : Bool :=
  isLineStart s p && faHeadingCh.isPrefixOf (s.drop p) && (fvHeadingEnd s p).isSome

/-- The leftmost full match position of that pattern. -/
def fvFAMatch (s : List Char) : Option Nat :=
  ((List.range (s.length + 1)).filter (fvFAHeadP s)).head?

/-- A candidate for `^## Failed Attempts\s*$(.*?)^##` (M|S, line 81):
additionally some later line must start with "##".  Backtracking `\s*`
to an earlier `$` cannot rescue a failed candidate — every position
between an earlier newline of the run and its last newline holds only
whitespace, never the '#' a `^##` needs — so the engine moves on to the
next heading occurrence. -/
def fvFAHead81P (s : List Char) (p : Nat) : Bool :=
  isLineStart s p && faHeadingCh.isPrefixOf (s.drop p) &&
    (match fvHeadingEnd s p with
     | none => false
     | some e => (idxLineHHFrom s e).isSome)

/-- has_failed_attempts_table (lines 79-85): True (skip) when the
section regex does not match, else whether the lazy group — the text
from the match end of `\s*$` to the next `^##` line — holds a pipe. -/
def has_failed_attempts_table (content : String) : Bool :=
  let s := content.data
  match ((List.range (s.length + 1)).filter (fvFAHead81P s)).head? with
  | none => true
  | some p =>
    match fvHeadingEnd s p with
    | none => true
    | some e =>
      match idxLineHHFrom s e with
      | none => true
      | some q => hasSub ['|'] ((s.drop e).take (q - e))

/-- The insert-position loop of add_overview_section (lines 104-114). -/
def overviewInsertPos : List String → Bool → Nat → Nat
  | [], _, _ => 0
  | line :: rest, inFm, i =>
    if pyStrip line = "---" then overviewInsertPos rest (!inFm) (i + 1)
    else if !inFm && strStarts line "# " then i + 1
    else overviewInsertPos rest inFm (i + 1)

/-- add_overview_section (lines 88-117). -/
def add_overview_section (content : String) : String :=
  let date := extract_frontmatter_date content
  let objective := extract_objective content
  let overview_table :=
    "\n## Overview\n\n| Item | Details |\n|------|---------|\n| Date | " ++ date ++
    " |\n| Objective | " ++ objective ++ " |\n| Outcome | Operational |\n"
  let lines := splitLines content
  let pos := overviewInsertPos lines false 0
  joinWith "\n" ((lines.take pos) ++ [overview_table] ++ (lines.drop pos))

/-- rename_workflow_to_verified (lines 120-125): re.sub of the
exact-line pattern `^## Workflow$` (M) replaces every line that is
exactly "## Workflow". -/
def rename_workflow_to_verified (content : String) : String :=
  if has_verified_workflow_section content then content
  else joinWith "\n"
    ((splitLines content).map
      (fun l => if l = "## Workflow" then "## Verified Workflow" else l))

def resultsSection : String :=
  "\n## Results & Parameters\n\nN/A — this skill describes a workflow pattern.\n"

/-- add_results_section (lines 128-141): insert before every
'## References' occurrence (str.replace replaces all), else append after
stripping trailing whitespace. -/
def add_results_section (content : String) : String :=
  if strContains content "## References" then
    pyReplace content "## References" (resultsSection ++ "\n## References")
  else pyRstrip content ++ "\n" ++ resultsSection

def fvTableSubs : String :=
  "\n\n| Attempt | Why Failed | Lesson |\n|---------|-----------|--------|\n| See detailed subsections below | Various technical issues | Refer to individual attempt details |\n"

def fvTableGeneric : String :=
  "\n\n| Attempt | Why Failed | Lesson |\n|---------|-----------|--------|\n| Initial approach | See details below | Refer to notes in this section |\n"

/-- add_failed_attempts_table (lines 144-177).  The section regex of
line 151 carries the `(?:^##|\Z)` alternative, so it completes at every
position where the line-146 search matches, with the group running to
the next `^##` line or end of document; `^###` is searched inside the
section string (position 0 of the section and every position after one
of its newlines are line starts). -/
def add_failed_attempts_table (content : String) : String :=
  let s := content.data
  match fvFAMatch s with
  | none => content
  | some p =>
    match fvHeadingEnd s p with
    | none => content
    | some e =>
      let q := (idxLineHHFrom s e).getD s.length
      let sec : String := ⟨(s.drop e).take (q - e)⟩
      let hasSubs := (splitLines sec).any (fun l => strStarts l "###")
      let table := if hasSubs then fvTableSubs else fvTableGeneric
      ⟨s.take e ++ table.data ++ s.drop e⟩

/-- The four conditional fixes of fix_skill_file (lines 180-213), as the
pure content transformation plus the fix descriptions. -/
def applyFixes (content : String) : String × List String :=
  let s1 := if has_overview_section content then (content, ([] : List String))
            else (add_overview_section content, ["Added ## Overview table"])
  let s2 := if has_verified_workflow_section s1.1 then (s1.1, ([] : List String))
            else
              let n := rename_workflow_to_verified s1.1
              if n ≠ s1.1 then (n, ["Renamed ## Workflow to ## Verified Workflow"])
              else (s1.1, [])
  let s3 := if has_results_section s2.1 then (s2.1, ([] : List String))
            else (add_results_section s2.1, ["Added ## Results & Parameters"])
  let s4 := if has_failed_attempts_table s3.1 then (s3.1, ([] : List String))
            else (add_failed_attempts_table s3.1, ["Added Failed Attempts summary table"])
  (s4.1, s1.2 ++ s2.2 ++ s3.2 ++ s4.2)

/-- fix_skill_file (lines 180-213): (modified, fixes, new content); the
file is written back exactly when modified is true. -/
def fix_skill_file (content : String) : Bool × List String × String :=
  let r := applyFixes content
  if r.1 ≠ content then (true, r.2, r.1) else (false, [], r.1)

/-- A document on which the patcher is not idempotent: the first run
appends the Results section after rstrip-ping the trailing whitespace,
which turns the final "## Workflow " line into an exact "## Workflow"
line; the second run then renames it. -/
def c8doc : String := "# T\ntext\n## Workflow \n"

end FixValidationWarnings

/-! ## scripts/fix_failed_attempts_tables.py -/

namespace FixFailedAttemptsTables

/-- The leftmost line-start occurrence of the Failed Attempts heading
(`^## Failed Attempts.*?$` under re.MULTILINE: the lazy `.*?$` always
completes at the end of the heading line, so the heading prefix at a
line start is the whole match condition). -/
def ftHeadIdx (s : List Char) : Option Nat :=
  ((List.range (s.length + 1)).filter
    (fun p => isLineStart s p && faHeadingCh.isPrefixOf (s.drop p))).head?

/-- The group of `^## Failed Attempts.*?$(.*?)(?:^##|\Z)` (M|S, lines 28
and 93): from the first newline after the heading text (or end of
document) to the next line starting with "##" — which includes "###"
subsection lines — or the end of the document.  The lazy groups never
force backtracking: `.*?$` stops at the first newline and the
`(?:^##|\Z)` alternative always completes. -/
def ftSection (s : List Char) : Option (List Char) :=
  match ftHeadIdx s with
  | none => none
  | some p =>
    let e := idxNlFrom s (p + faHeadingCh.length)
    let q := (idxLineHHFrom s e).getD s.length
    some ((s.drop e).take (q - e))

/-- has_failed_attempts_table (lines 26-32). -/
def has_failed_attempts_table (content : String) : Bool :=
  match ftSection content.data with
  | none => true
  | some sec => hasSub ['|'] sec

/-- The common tail `\s*(.+?)$` of the three attempt patterns, from
position t0: greedy `\s*` takes the maximal whitespace run; `(.+?)$`
needs one non-newline character, so the title starts right after the run
when a character remains there, else `\s*` backtracks to the last
whitespace character of the run that is not a newline; the lazy `.+?`
then stops at the first newline or end.  Returns (title, match end). -/
def tailTitle (s : List Char) (t0 : Nat) : Option (List Char × Nat) :=
  let w := wsRunLen s t0
  if t0 + w < s.length then
    let st := t0 + w
    let en := idxNlFrom s (st + 1)
    some ((s.drop st).take (en - st), en)
  else
    match ((List.range w).filter
        (fun k => match s[t0+k]? with
                  | some c => pyIsSpace c && !(c == '\n')
                  | none => false)).getLast? with
    | none => none
    | some k =>
      let st := t0 + k
      let en := idxNlFrom s (st + 1)
      some ((s.drop st).take (en - st), en)

/-- Pattern r'###\s*(.+?)$' at position i. -/
def p3At (s : List Char) (i : Nat) : Option (List Char × Nat) :=
  if ("###".data).isPrefixOf (s.drop i) then tailTitle s (i + 3) else none

/-- The middle `Attempt\s+\d+:` of patterns 1 and 2, from position j:
literal "Attempt", at least one whitespace (greedy, and whitespace holds
no digit so backtracking cannot help), a maximal digit run, then a
colon.  Returns the position after the colon. -/
def attemptNumTail (s : List Char) (j : Nat) : Option Nat :=
  if ("Attempt".data).isPrefixOf (s.drop j) then
    let w2 := wsRunLen s (j + 7)
    if w2 = 0 then none
    else
      let d := ((s.drop (j + 7 + w2)).takeWhile Char.isDigit).length
      if d = 0 then none
      else if s[j + 7 + w2 + d]? == some ':' then some (j + 7 + w2 + d + 1)
      else none
  else none

/-- Pattern r'###\s*Attempt\s+\d+:\s*(.+?)$' at position i (the greedy
`\s*` after "###" cannot backtrack into a match of the literal). -/
def p2At (s : List Char) (i : Nat) : Option (List Char × Nat) :=
  if ("###".data).isPrefixOf (s.drop i) then
    let pos := i + 3 + wsRunLen s (i + 3)
    match attemptNumTail s pos with
    | none => none
    | some t0 => tailTitle s t0
  else none

/-- Pattern r'###\s*❌\s*Attempt\s+\d+:\s*(.+?)$' at position i. -/
def p1At (s : List Char) (i : Nat) : Option (List Char × Nat) :=
  if ("###".data).isPrefixOf (s.drop i) then
    let pos := i + 3 + wsRunLen s (i + 3)
    if s[pos]? == some '❌' then
      let pos2 := pos + 1 + wsRunLen s (pos + 1)
      match attemptNumTail s pos2 with
      | none => none
      | some t0 => tailTitle s t0
    else none
  else none

/-- re.finditer: repeated leftmost search, resuming at each match end. -/
def finditerGo (matchAt : Nat → Option (List Char × Nat)) (n : Nat) :
    Nat → Nat → List (List Char)
  | 0, _ => []
  | fuel + 1, i =>
    if i > n then []
    else
      match matchAt i with
      | some (t, e) => t :: finditerGo matchAt n fuel (max e (i + 1))
      | none => finditerGo matchAt n fuel (i + 1)

def finditerTitles (matchAt : Nat → Option (List Char × Nat)) (s : List Char) :
    List (List Char) :=
  finditerGo matchAt s.length (s.length + 2) 0

/-- extract_attempts_from_subsections (lines 35-57): try the three
patterns in order, keep the first that matches anywhere, take the first
three matches and strip each title. -/
def extract_attempts_from_subsections (section_content : List Char) : List String :=
  let m1 := finditerTitles (p1At section_content) section_content
  let ms :=
    if !m1.isEmpty then m1
    else
      let m2 := finditerTitles (p2At section_content) section_content
      if !m2.isEmpty then m2
      else finditerTitles (p3At section_content) section_content
  (ms.take 3).map (fun t => pyStrip ⟨t⟩)

def ftGenericTable : String :=
  "\n| Attempt | Issue | Resolution |\n|---------|-------|------------|\n| See detailed notes below | Various approaches tried | Refer to documentation in this section |\n"

def ftTableHeader : String :=
  "\n| Attempt | Issue | Resolution |\n|---------|-------|------------|\n"

/-- The row loop of generate_summary_table (lines 68-72), numbering
attempts from 1 and truncating titles beyond 50 characters. -/
def ftRows : Nat → List String → String
  | _, [] => ""
  | i, t :: rest =>
    let t2 := if t.length > 50 then String.mk (t.data.take 47) ++ "..." else t
    "| " ++ toString i ++ ". " ++ t2 ++ " | See details below | Documented in subsections |\n"
      ++ ftRows (i + 1) rest

/-- generate_summary_table (lines 60-81). -/
def generate_summary_table (section_content : List Char) : String :=
  let attempts := extract_attempts_from_subsections section_content
  if !attempts.isEmpty then ftTableHeader ++ ftRows 1 attempts
  else ftGenericTable

/-- add_failed_attempts_table (lines 84-104): insert the generated table
right after the end of the heading line (match.end() of the line-88
search, which equals the first newline after the heading text or end of
document). -/
def add_failed_attempts_table (content : String) : String :=
  let s := content.data
  match ftHeadIdx s with
  | none => content
  | some p =>
    let e := idxNlFrom s (p + faHeadingCh.length)
    let sec := (ftSection s).getD []
    let table := generate_summary_table sec
    ⟨s.take e ++ table.data ++ s.drop e⟩

/-- fix_skill_file (lines 107-121): (modified, description, new
content); the file is written back exactly when modified is true. -/
def fix_skill_file (content : String) : Bool × String × String :=
  if has_failed_attempts_table content then (false, "Already has table", content)
  else
    let c2 := add_failed_attempts_table content
    if c2 ≠ content then (true, "Added summary table", c2)
    else (false, "No changes needed", c2)

/-- The claim's concrete scenario: a Failed Attempts section holding a
'### Attempt 1: Wrong config' subsection and no pipe characters. -/
def c9doc : String :=
  "---\nname: x\n---\n\n# T\n\n## Failed Attempts\n\n### Attempt 1: Wrong config\n\nDetails here with no pipes.\n\n## Results\n\nStuff.\n"

/-- What fix_skill_file actually produces for c9doc: the generic
placeholder table, inserted at the end of the heading line; the
subsection title "Wrong config" never reaches the table because the
section regex `(?:^##|\Z)` truncates the examined section at the
"### Attempt 1" line itself. -/
def c9fixed : String :=
  "---\nname: x\n---\n\n# T\n\n## Failed Attempts\n| Attempt | Issue | Resolution |\n|---------|-------|------------|\n| See detailed notes below | Various approaches tried | Refer to documentation in this section |\n\n\n### Attempt 1: Wrong config\n\nDetails here with no pipes.\n\n## Results\n\nStuff.\n"

end FixFailedAttemptsTables

namespace ValidatePlugins

/-! ### Concrete inputs for the validator claims -/

/-- The manifest of the spec's concrete scenario. -/
def demoManifest : Json := .obj
  [("name", .str "Demo_Tool"), ("version", .str "1.0.0"),
   ("description", .str "short"), ("category", .str "bogus"),
   ("date", .str "2024-13-40"), ("tags", .str "x")]

/-- A plugin directory holding only that manifest. -/
def demoDir : FsNode := .dir
  [(".claude-plugin", .dir [("plugin.json", .file "demo manifest text" (some demoManifest))])]

/-- The error list the validator actually produces for demoManifest. -/
def demoErrors : List String :=
  ["Invalid name format \x27Demo_Tool\x27 (use lowercase, numbers, hyphens)",
   "Description too short (5 chars, min 20)",
   "Invalid category \x27bogus\x27. Valid: architecture, ci-cd, debugging, evaluation, optimization, testing, tooling, training",
   "tags must be a list"]

/-- A one-category, one-plugin tree around demoDir. -/
def demoRoot : FsNode := .dir [("tooling", .dir [("demo", demoDir)])]

def demoPlugins : List (String × FsNode) := [("demo", demoDir)]

/-- The result validate_plugin computes for demoDir (the missing skills/
directory adds a fifth error). -/
def demoResult : ValidationResult :=
  { pluginName := "demo", is_valid := false,
    errors := demoErrors ++ ["Missing skills/ directory"], warnings := [] }

/-- A skill document whose Failed Attempts section holds a ### subsection
followed by a pipe table: the code's split on "##" stops at the "###"
line, so the examined text misses the pipe. -/
def c3doc : String :=
  "---\nx\n---\n## Failed Attempts\n\nsome text\n### Attempt 1: x\n| a | b |\n"

/-- A skill document whose Overview heading appears only at ###-level:
"### Overview" contains the substring "## Overview" but no exact
"## Overview" line. -/
def c4doc : String :=
  "---\nfm\n---\n# T\n### Overview\n## When to Use\n## Verified Workflow\n## Failed Attempts\n| t |\n## Results\n"

/-- Formalisation of C4's wording: a section heading is present when it
occurs as an exact-match line of the document. -/
def specExactLinePresent (content marker : String) : Bool :=
  (splitLines content).contains marker

/-- Formalisation of C3's wording: the body between the Failed Attempts
heading line and the next ##-level heading (a line starting with "##"
but not "###") or the end of the document. -/
def specFailedBody (content : String) : String :=
  let ls := splitLines content
  let after := (ls.dropWhile (fun l => !(strStarts l "## Failed Attempts"))).drop 1
  joinLines (after.takeWhile (fun l => !(strStarts l "##" && !strStarts l "###")))

/-- The segment of the document after the first occurrence of the Failed
Attempts heading, up to its next occurrence or end of document (given the
index `i` of the first occurrence). -/
def faPart1 (content : String) (i : Nat) : List Char :=
  match findSub faHeadingCh (content.data.drop (i + faHeadingCh.length)) with
  | none => content.data.drop (i + faHeadingCh.length)
  | some j => (content.data.drop (i + faHeadingCh.length)).take j

/-- Index-based description of the text the pipe check examines (the
amended C3): the segment after the first occurrence of the heading
string, up to its next occurrence (or end of document), truncated at the
first occurrence of "##" inside that segment. -/
def examinedSegment (content : String) : String :=
  match findSub faHeadingCh content.data with
  | none => ""
  | some i =>
    match findSub hhCh (faPart1 content i) with
    | none => ⟨faPart1 content i⟩
    | some k => ⟨(faPart1 content i).take k⟩

/-- A plugin directory whose manifest file parses to the JSON value `j`
(for the non-object claim C10). -/
def mkManifestDir (j : Json) : FsNode := .dir
  [(".claude-plugin", .dir [("plugin.json", .file "manifest text" (some j))])]

end ValidatePlugins

/-! ## Helper lemmas -/

open ValidatePlugins in
/-- Warnings produced by the required-sections loop are exactly the
"Missing ..." messages of sections whose marker is absent from the
document and whose name is not the Failed Attempts one. -/
theorem sectionChecks_warns_iff (content w : String) :
    ∀ L, w ∈ (sectionChecks content L).2 ↔
      ∃ p, p ∈ L ∧ w = "Missing " ++ p.2 ∧
        strContains p.2 "Failed Attempts" = false ∧ strContains content p.1 = false
  | [] => by simp [sectionChecks]
  | (m, nm) :: rest => by
    have ih := sectionChecks_warns_iff content w rest
    simp only [sectionChecks]
    by_cases h1 : strContains content m = true
    · simp only [h1, if_true, ih]
      constructor
      · rintro ⟨p, hp, hrest⟩
        exact ⟨p, List.mem_cons_of_mem _ hp, hrest⟩
      · rintro ⟨p, hp, he, hfa, hc⟩
        rcases List.mem_cons.mp hp with rfl | hp'
        · rw [h1] at hc; cases hc
        · exact ⟨p, hp', he, hfa, hc⟩
    · rw [Bool.not_eq_true] at h1
      simp only [h1, Bool.false_eq_true, if_false]
      by_cases h2 : strContains nm "Failed Attempts" = true
      · simp only [h2, if_true, ih]
        constructor
        · rintro ⟨p, hp, hrest⟩
          exact ⟨p, List.mem_cons_of_mem _ hp, hrest⟩
        · rintro ⟨p, hp, he, hfa, hc⟩
          rcases List.mem_cons.mp hp with rfl | hp'
          · rw [h2] at hfa; cases hfa
          · exact ⟨p, hp', he, hfa, hc⟩
      · rw [Bool.not_eq_true] at h2
        simp only [h2, Bool.false_eq_true, if_false]
        rw [List.mem_cons, ih]
        constructor
        · rintro (rfl | ⟨p, hp, hrest⟩)
          · exact ⟨(m, nm), List.mem_cons_self _ _, rfl, h2, h1⟩
          · exact ⟨p, List.mem_cons_of_mem _ hp, hrest⟩
        · rintro ⟨p, hp, he, hfa, hc⟩
          rcases List.mem_cons.mp hp with rfl | hp'
          · exact Or.inl he
          · exact Or.inr ⟨p, hp', he, hfa, hc⟩

open ValidatePlugins in
/-- Errors produced by the required-sections loop are exactly the
"Missing ..." messages of absent sections whose name mentions Failed
Attempts. -/
theorem sectionChecks_errs_iff (content w : String) :
    ∀ L, w ∈ (sectionChecks content L).1 ↔
      ∃ p, p ∈ L ∧ w = "Missing " ++ p.2 ∧
        strContains p.2 "Failed Attempts" = true ∧ strContains content p.1 = false
  | [] => by simp [sectionChecks]
  | (m, nm) :: rest => by
    have ih := sectionChecks_errs_iff content w rest
    simp only [sectionChecks]
    by_cases h1 : strContains content m = true
    · simp only [h1, if_true, ih]
      constructor
      · rintro ⟨p, hp, hrest⟩
        exact ⟨p, List.mem_cons_of_mem _ hp, hrest⟩
      · rintro ⟨p, hp, he, hfa, hc⟩
        rcases List.mem_cons.mp hp with rfl | hp'
        · rw [h1] at hc; cases hc
        · exact ⟨p, hp', he, hfa, hc⟩
    · rw [Bool.not_eq_true] at h1
      simp only [h1, Bool.false_eq_true, if_false]
      by_cases h2 : strContains nm "Failed Attempts" = true
      · simp only [h2, if_true]
        rw [List.mem_cons, ih]
        constructor
        · rintro (rfl | ⟨p, hp, hrest⟩)
          · exact ⟨(m, nm), List.mem_cons_self _ _, rfl, h2, h1⟩
          · exact ⟨p, List.mem_cons_of_mem _ hp, hrest⟩
        · rintro ⟨p, hp, he, hfa, hc⟩
          rcases List.mem_cons.mp hp with rfl | hp'
          · exact Or.inl he
          · exact Or.inr ⟨p, hp', he, hfa, hc⟩
      · rw [Bool.not_eq_true] at h2
        simp only [h2, Bool.false_eq_true, if_false, ih]
        constructor
        · rintro ⟨p, hp, hrest⟩
          exact ⟨p, List.mem_cons_of_mem _ hp, hrest⟩
        · rintro ⟨p, hp, he, hfa, hc⟩
          rcases List.mem_cons.mp hp with rfl | hp'
          · rw [h2] at hfa; cases hfa
          · exact ⟨p, hp', he, hfa, hc⟩

theorem findSubAux_some {sep : List Char} :
    ∀ (s : List Char) (i j : Nat), findSubAux sep s i = some j →
      ∃ k, j = i + k ∧ sep.isPrefixOf (s.drop k) = true ∧ k ≤ s.length := by
  intro s
  induction s with
  | nil =>
    intro i j h
    unfold findSubAux at h
    split at h
    · rename_i hp
      injection h with h
      exact ⟨0, by omega, by simpa using hp, by simp⟩
    · simp at h
  | cons c rest ih =>
    intro i j h
    unfold findSubAux at h
    split at h
    · rename_i hp
      injection h with h
      exact ⟨0, by omega, by simpa using hp, by simp⟩
    · obtain ⟨k, hk, hpre, hle⟩ := ih (i + 1) j h
      refine ⟨k + 1, by omega, by simpa using hpre, ?_⟩
      simp only [List.length_cons]
      omega

theorem findSub_some {sep s : List Char} {i : Nat} (h : findSub sep s = some i) :
    sep.isPrefixOf (s.drop i) = true ∧ i ≤ s.length := by
  obtain ⟨k, hk, hpre, hle⟩ := findSubAux_some s 0 i h
  have : i = k := by omega
  subst this
  exact ⟨hpre, hle⟩

theorem findSub_some_bound {sep s : List Char} {i : Nat} (h : findSub sep s = some i) :
    i + sep.length ≤ s.length := by
  obtain ⟨hpre, hle⟩ := findSub_some h
  have := List.IsPrefix.length_le (List.isPrefixOf_iff_prefix.mp hpre)
  rw [List.length_drop] at this
  omega

theorem pySplitChF_congr {sep : List Char} (hsep : sep ≠ []) :
    ∀ (f1 f2 : Nat) (s : List Char), s.length < f1 → s.length < f2 →
      pySplitChF sep f1 s = pySplitChF sep f2 s := by
  intro f1
  induction f1 with
  | zero => intro f2 s h1 _; omega
  | succ f1 ih =>
    intro f2 s h1 h2
    cases f2 with
    | zero => omega
    | succ f2 =>
      simp only [pySplitChF]
      cases hf : findSub sep s with
      | none => rfl
      | some i =>
        have hbound := findSub_some_bound hf
        have hsl : 0 < sep.length := List.length_pos.mpr hsep
        have hlen : (s.drop (i + sep.length)).length < s.length := by
          rw [List.length_drop]; omega
        simp only [List.cons.injEq, true_and]
        exact ih f2 _ (by omega) (by omega)

theorem pySplitCh_of_none {sep s : List Char} (h : findSub sep s = none) :
    pySplitCh sep s = [s] := by
  unfold pySplitCh
  simp only [pySplitChF, h]

theorem pySplitCh_of_some {sep s : List Char} {i : Nat} (hsep : sep ≠ [])
    (h : findSub sep s = some i) :
    pySplitCh sep s = s.take i :: pySplitCh sep (s.drop (i + sep.length)) := by
  unfold pySplitCh
  conv_lhs => rw [pySplitChF]
  rw [h]
  have hbound := findSub_some_bound h
  have hsl : 0 < sep.length := List.length_pos.mpr hsep
  have hlen : (s.drop (i + sep.length)).length < s.length := by
    rw [List.length_drop]; omega
  simp only [List.cons.injEq, true_and]
  exact pySplitChF_congr hsep _ _ _ (by omega) (by omega)

open ValidatePlugins in
/-- Any message produced by the pipe check is the pipe warning. -/
theorem mem_pipeCheckWarns {content w : String} (h : w ∈ pipeCheckWarns content) :
    w = pipeWarning := by
  unfold pipeCheckWarns at h
  split at h
  · split at h
    · cases h
    · simpa using h
  · cases h

open ValidatePlugins in
/-- Any message produced by the frontmatter check is the frontmatter
message. -/
theorem mem_fmErrsOf {content w : String} (h : w ∈ fmErrsOf content) :
    w = fmMissingMsg := by
  unfold fmErrsOf at h
  split at h
  · cases h
  · simpa using h

open ValidatePlugins in
/-- The pipe warning is produced exactly when the heading is present and
the examined split text holds no pipe. -/
theorem pipeWarning_mem_pipeCheckWarns {content : String} :
    pipeWarning ∈ pipeCheckWarns content ↔
      (strContains content "## Failed Attempts" = true ∧
       strContains (failedAttemptsExamined content) "|" = false) := by
  unfold pipeCheckWarns
  split
  · rename_i h1
    split
    · rename_i h2
      simp [h1, h2]
    · rename_i h2
      rw [Bool.not_eq_true] at h2
      simp [h1, h2]
  · rename_i h1
    rw [Bool.not_eq_true] at h1
    simp [h1]

open ValidatePlugins in
/-- The tail of the pipe-check computation: splitting a segment on "##"
and taking the head yields the segment up to the first "##" occurrence. -/
theorem pipeTail_eq (A : List Char) :
    ((pySplitS "##" ⟨A⟩).head?).getD ⟨A⟩ =
      (match findSub hhCh A with
       | none => (⟨A⟩ : String)
       | some k => ⟨A.take k⟩) := by
  cases hf3 : findSub hhCh A with
  | none =>
    have h2 : pySplitS "##" ⟨A⟩ = [⟨A⟩] := by
      show (pySplitCh hhCh A).map String.mk = _
      rw [pySplitCh_of_none hf3]
      rfl
    rw [h2]
    rfl
  | some k =>
    have h2 : pySplitS "##" ⟨A⟩
        = ⟨A.take k⟩ :: (pySplitCh hhCh (A.drop (k + hhCh.length))).map String.mk := by
      show (pySplitCh hhCh A).map String.mk = _
      rw [pySplitCh_of_some (by decide) hf3]
      rfl
    rw [h2]
    rfl

open ValidatePlugins in
theorem faPart1_of_none {content : String} {i : Nat}
    (h : findSub faHeadingCh (content.data.drop (i + faHeadingCh.length)) = none) :
    faPart1 content i = content.data.drop (i + faHeadingCh.length) := by
  unfold faPart1
  rw [h]

open ValidatePlugins in
theorem faPart1_of_some {content : String} {i j : Nat}
    (h : findSub faHeadingCh (content.data.drop (i + faHeadingCh.length)) = some j) :
    faPart1 content i = (content.data.drop (i + faHeadingCh.length)).take j := by
  unfold faPart1
  rw [h]

open ValidatePlugins in
/-- The split-based text the code examines equals its index-based
description whenever the heading occurs in the document. -/
theorem failedAttemptsExamined_eq {content : String}
    (h : strContains content "## Failed Attempts" = true) :
    failedAttemptsExamined content = examinedSegment content := by
  obtain ⟨i, hi⟩ : ∃ i, findSub faHeadingCh content.data = some i := by
    unfold strContains hasSub at h
    rw [show "## Failed Attempts".data = faHeadingCh from rfl] at h
    cases hf : findSub faHeadingCh content.data with
    | none => rw [hf] at h; simp at h
    | some i => exact ⟨i, rfl⟩
  have h1 : pySplitS "## Failed Attempts" content
      = ⟨content.data.take i⟩ :: (pySplitCh faHeadingCh
          (content.data.drop (i + faHeadingCh.length))).map String.mk := by
    show (pySplitCh faHeadingCh content.data).map String.mk = _
    rw [pySplitCh_of_some (by decide) hi]
    rfl
  unfold failedAttemptsExamined examinedSegment
  rw [hi, h1]
  simp only [List.get?_cons_succ]
  cases hf2 : findSub faHeadingCh (content.data.drop (i + faHeadingCh.length)) with
  | none =>
    rw [pySplitCh_of_none hf2, faPart1_of_none hf2]
    simp only [List.map_cons, List.map_nil, List.get?_cons_zero, Option.getD_some]
    exact pipeTail_eq _
  | some j =>
    rw [pySplitCh_of_some (by decide) hf2, faPart1_of_some hf2]
    simp only [List.map_cons, List.get?_cons_zero, Option.getD_some]
    exact pipeTail_eq _

open ValidatePlugins in
/-- Membership of a non-Failed-Attempts section warning in the final
warning list is exactly absence of its marker substring. -/
theorem warnMem_iff (content marker nm : String)
    (hmem : (marker, nm) ∈ requiredSections)
    (hfa : strContains nm "Failed Attempts" = false)
    (huniq : ∀ p ∈ requiredSections, "Missing " ++ nm = "Missing " ++ p.2 → p = (marker, nm))
    (hnp : ¬("Missing " ++ nm = pipeWarning)) :
    (("Missing " ++ nm) ∈ (skillContentChecks content).2 ↔
      strContains content marker = false) := by
  unfold skillContentChecks
  rw [List.mem_append]
  constructor
  · rintro (hmemw | hpipe)
    · obtain ⟨p, hp, he, _, hc⟩ := (sectionChecks_warns_iff _ _ _).mp hmemw
      have hpe := huniq p hp he
      rw [hpe] at hc
      exact hc
    · exact absurd (mem_pipeCheckWarns hpipe) hnp
  · intro hc
    exact Or.inl ((sectionChecks_warns_iff _ _ _).mpr ⟨(marker, nm), hmem, rfl, hfa, hc⟩)

/-! ### Order lemmas for the marketplace sort -/

theorem strLtB_irrefl : ∀ a : List Char, strLtB a a = false
  | [] => rfl
  | c :: rest => by
    unfold strLtB
    rw [if_neg (lt_irrefl c.toNat), if_neg (lt_irrefl c.toNat)]
    exact strLtB_irrefl rest

theorem strLtB_trans : ∀ (a b c : List Char),
    strLtB a b = true → strLtB b c = true → strLtB a c = true := by
  intro a
  induction a with
  | nil =>
    intro b c h1 h2
    cases c with
    | nil =>
      cases b with
      | nil => simp [strLtB] at h1
      | cons y ys => simp [strLtB] at h2
    | cons z zs => rfl
  | cons x xs ih =>
    intro b c h1 h2
    cases b with
    | nil => simp [strLtB] at h1
    | cons y ys =>
      cases c with
      | nil => simp [strLtB] at h2
      | cons z zs =>
        unfold strLtB at h1 h2 ⊢
        by_cases hxy : x.toNat < y.toNat
        · rw [if_pos hxy] at h1
          by_cases hyz : y.toNat < z.toNat
          · rw [if_pos (show x.toNat < z.toNat by omega)]
          · rw [if_neg hyz] at h2
            by_cases hzy : z.toNat < y.toNat
            · rw [if_pos hzy] at h2; cases h2
            · rw [if_pos (show x.toNat < z.toNat by omega)]
        · rw [if_neg hxy] at h1
          by_cases hyx : y.toNat < x.toNat
          · rw [if_pos hyx] at h1; cases h1
          · rw [if_neg hyx] at h1
            by_cases hyz : y.toNat < z.toNat
            · rw [if_pos hyz] at h2
              rw [if_pos (show x.toNat < z.toNat by omega)]
            · rw [if_neg hyz] at h2
              by_cases hzy : z.toNat < y.toNat
              · rw [if_pos hzy] at h2; cases h2
              · rw [if_neg hzy] at h2
                rw [if_neg (show ¬x.toNat < z.toNat by omega),
                    if_neg (show ¬z.toNat < x.toNat by omega)]
                exact ih ys zs h1 h2

theorem strLtB_eq_of_not : ∀ (a b : List Char),
    strLtB a b = false → strLtB b a = false → a = b := by
  intro a
  induction a with
  | nil =>
    intro b h1 _
    cases b with
    | nil => rfl
    | cons y ys => simp [strLtB] at h1
  | cons x xs ih =>
    intro b h1 h2
    cases b with
    | nil => simp [strLtB] at h2
    | cons y ys =>
      unfold strLtB at h1 h2
      by_cases hxy : x.toNat < y.toNat
      · rw [if_pos hxy] at h1; cases h1
      · by_cases hyx : y.toNat < x.toNat
        · rw [if_pos hyx] at h2; cases h2
        · rw [if_neg hxy, if_neg hyx] at h1
          have hn : x.toNat = y.toNat := by omega
          have hchar : x = y := Char.ext (UInt32.ext hn)
          subst hchar
          rw [if_neg hxy, if_neg hyx] at h2
          rw [ih ys h1 h2]

theorem strLtB_asymm {a b : List Char} (h : strLtB a b = true) : strLtB b a = false := by
  by_contra hne
  rw [Bool.not_eq_false] at hne
  have := strLtB_trans a b a h hne
  rw [strLtB_irrefl] at this
  cases this

theorem pyStrLe_trans {a b c : String}
    (h1 : pyStrLe a b = true) (h2 : pyStrLe b c = true) : pyStrLe a c = true := by
  unfold pyStrLe at *
  rw [Bool.not_eq_true'] at h1 h2 ⊢
  by_contra hca
  rw [Bool.not_eq_false] at hca
  by_cases hbc : strLtB b.data c.data = true
  · rw [strLtB_trans _ _ _ hbc hca] at h1
    cases h1
  · rw [Bool.not_eq_true] at hbc
    have := strLtB_eq_of_not _ _ hbc h2
    rw [← this] at hca
    rw [hca] at h1
    cases h1

namespace GenerateMarketplace

theorem pairLeB_total (x y : String × String) : pairLeB x y = true ∨ pairLeB y x = true := by
  unfold pairLeB
  by_cases h1 : strLtB x.1.data y.1.data = true
  · left; rw [if_pos h1]
  · rw [Bool.not_eq_true] at h1
    by_cases h2 : strLtB y.1.data x.1.data = true
    · right; rw [if_pos h2]
    · rw [Bool.not_eq_true] at h2
      by_cases h3 : strLtB y.2.data x.2.data = true
      · right
        rw [if_neg (by rw [h2]; exact Bool.false_ne_true),
            if_neg (by rw [h1]; exact Bool.false_ne_true)]
        unfold pyStrLe
        rw [strLtB_asymm h3]
        rfl
      · left
        rw [if_neg (by rw [h1]; exact Bool.false_ne_true),
            if_neg (by rw [h2]; exact Bool.false_ne_true)]
        unfold pyStrLe
        rw [Bool.not_eq_true] at h3
        rw [h3]
        rfl

theorem pairLeB_trans {x y z : String × String}
    (h1 : pairLeB x y = true) (h2 : pairLeB y z = true) : pairLeB x z = true := by
  unfold pairLeB at *
  by_cases hab : strLtB x.1.data y.1.data = true
  · by_cases hbc : strLtB y.1.data z.1.data = true
    · rw [if_pos (strLtB_trans _ _ _ hab hbc)]
    · rw [if_neg hbc] at h2
      by_cases hcb : strLtB z.1.data y.1.data = true
      · rw [if_pos hcb] at h2; cases h2
      · rw [Bool.not_eq_true] at hbc hcb
        have heq := strLtB_eq_of_not _ _ hbc hcb
        rw [← heq]
        rw [if_pos hab]
  · rw [if_neg hab] at h1
    by_cases hba : strLtB y.1.data x.1.data = true
    · rw [if_pos hba] at h1; cases h1
    · rw [if_neg hba] at h1
      rw [Bool.not_eq_true] at hab hba
      have heq := strLtB_eq_of_not _ _ hab hba
      by_cases hbc : strLtB y.1.data z.1.data = true
      · rw [if_pos (by rw [heq]; exact hbc)]
      · rw [if_neg hbc] at h2
        by_cases hcb : strLtB z.1.data y.1.data = true
        · rw [if_pos hcb] at h2; cases h2
        · rw [if_neg hcb] at h2
          rw [Bool.not_eq_true] at hbc hcb
          have heq2 := strLtB_eq_of_not _ _ hbc hcb
          rw [if_neg (by rw [heq, heq2]; rw [strLtB_irrefl]; exact Bool.false_ne_true),
              if_neg (by rw [heq, heq2]; rw [strLtB_irrefl]; exact Bool.false_ne_true)]
          exact pyStrLe_trans h1 h2

instance : IsTotal MarketplaceEntry entryLe :=
  ⟨fun a b => pairLeB_total (entryKeyStr a) (entryKeyStr b)⟩

instance : IsTrans MarketplaceEntry entryLe :=
  ⟨fun _ _ _ h1 h2 => pairLeB_trans h1 h2⟩

/-! ### Concrete inputs for the marketplace claims -/

/-- A plugin directory with a complete manifest. -/
def mkPlugin (nm cat : String) : FsNode := .dir
  [(".claude-plugin", .dir [("plugin.json", .file "manifest" (some (.obj
     [("name", .str nm), ("version", .str "2.0"), ("description", .str "a demo plugin"),
      ("category", .str cat), ("tags", .arr [.str "t"])])))])]

/-- A two-category tree whose listing order disagrees with the sort
order. -/
def gmRoot : FsNode := .dir
  [("tooling", .dir [("zz", mkPlugin "zz-plug" "tooling"),
                     ("aa", mkPlugin "aa-plug" "tooling")]),
   ("ci-cd", .dir [("bb", mkPlugin "bb-plug" "ci-cd")])]

def gmEntry (nm cat src : String) : MarketplaceEntry :=
  { name := .str nm, description := .str "a demo plugin", version := .str "2.0",
    source := .str src, category := .str cat, tags := .arr [.str "t"] }

/-- The index generate_marketplace produces for gmRoot. -/
def gmExpected : Marketplace :=
  { name := "ProjectMnemosyne",
    ownerName := "HomericIntelligence",
    ownerUrl := "https://github.com/HomericIntelligence",
    description := "Skills marketplace for the HomericIntelligence agentic ecosystem",
    version := "1.0.0",
    plugins := [gmEntry "bb-plug" "ci-cd" "./plugins/ci-cd/bb",
                gmEntry "aa-plug" "tooling" "./plugins/tooling/aa",
                gmEntry "zz-plug" "tooling" "./plugins/tooling/zz"] }

/-- A plugin directory without a manifest file. -/
def absentManifestDir : FsNode := .dir []

/-- A plugin directory whose manifest file does not parse as JSON. -/
def invalidManifestDir (text : String) : FsNode :=
  .dir [(".claude-plugin", .dir [("plugin.json", .file text none)])]

end GenerateMarketplace

/-! ## Claim theorems -/

open ValidatePlugins

/-- C1 (counterexample): on the spec's demo manifest the validator
produces four errors, and none of them is a date-format error — the
claim's "exactly five errors" including "invalid date format" is false:
"2024-13-40" satisfies the format-only regex \d{4}-\d{2}-\d{2}. -/
theorem demo_manifest_no_date_error :
    validate_plugin_json demoDir = Except.ok (demoErrors, [], demoManifest) ∧
    demoErrors.length = 4 ∧
    (∀ e ∈ demoErrors, strContains e "Invalid date format" = false) := by
  refine ⟨by rfl, by rfl, by decide⟩

/-- C1 (amended): the demo manifest yields exactly the four errors
invalid name format, description too short, invalid category, and tags
must be a list — no date error, since "2024-13-40" matches the
format-only date regex — and any plugin carrying it is marked invalid
(here via validate_plugin on a directory holding that manifest). -/
theorem demo_manifest_exactly_four_errors :
    validate_plugin_json demoDir = Except.ok (demoErrors, [], demoManifest) ∧
    demoErrors =
      ["Invalid name format \x27Demo_Tool\x27 (use lowercase, numbers, hyphens)",
       "Description too short (5 chars, min 20)",
       "Invalid category \x27bogus\x27. Valid: architecture, ci-cd, debugging, evaluation, optimization, testing, tooling, training",
       "tags must be a list"] ∧
    validate_plugin "demo" demoDir = Except.ok demoResult ∧
    demoResult.is_valid = false :=
  ⟨by rfl, by rfl, by rfl, by rfl⟩

/-- C10: a manifest that parses as JSON but whose top-level value is not
an object makes validate_plugin_json raise an uncaught AttributeError at
`data.keys()` (line 92), which propagates through validate_plugin and
aborts the validation run. -/
theorem nonobject_manifest_raises (j : Json) (h : ∀ fields, j ≠ Json.obj fields) :
    validate_plugin_json (mkManifestDir j) = Except.error PyErr.attributeError ∧
    (∀ name, validate_plugin name (mkManifestDir j) = Except.error PyErr.attributeError) := by
  cases j with
  | null => exact ⟨rfl, fun _ => rfl⟩
  | bool b => exact ⟨rfl, fun _ => rfl⟩
  | num n => exact ⟨rfl, fun _ => rfl⟩
  | str s => exact ⟨rfl, fun _ => rfl⟩
  | arr l => exact ⟨rfl, fun _ => rfl⟩
  | obj fields => exact absurd rfl (h fields)

/-- Witness for C10 at the concrete non-object manifest `[]`. -/
theorem nonobject_manifest_raises_witness :
    validate_plugin_json (mkManifestDir (Json.arr [])) = Except.error PyErr.attributeError ∧
    (∀ name, validate_plugin name (mkManifestDir (Json.arr [])) =
      Except.error PyErr.attributeError) :=
  nonobject_manifest_raises (Json.arr []) (fun _ heq => Json.noConfusion heq)

/-- C4 (counterexample): in c4doc the Overview heading occurs only as
"### Overview", which is not an exact-match "## Overview" line, yet the
validator emits no warning at all — presence is a substring test, not the
claimed exact-match-line test. -/
theorem section_presence_not_line_exact :
    skillContentChecks c4doc = ([], []) ∧
    specExactLinePresent c4doc "## Overview" = false := by
  exact ⟨by rfl, by rfl⟩

/-- C4 (amended): each of the five required markers is checked for
presence as a substring of the document (not as an exact-match line); a
missing '## Failed Attempts' substring yields an error and a missing
marker among the other four yields a warning. -/
theorem section_presence_is_substring (content : String) :
    ("Missing Failed Attempts section (REQUIRED)" ∈ (skillContentChecks content).1 ↔
       strContains content "## Failed Attempts" = false) ∧
    ("Missing Overview table" ∈ (skillContentChecks content).2 ↔
       strContains content "## Overview" = false) ∧
    ("Missing When to Use section" ∈ (skillContentChecks content).2 ↔
       strContains content "## When to Use" = false) ∧
    ("Missing Verified Workflow section" ∈ (skillContentChecks content).2 ↔
       strContains content "## Verified Workflow" = false) ∧
    ("Missing Results & Parameters section" ∈ (skillContentChecks content).2 ↔
       strContains content "## Results" = false) := by
  refine ⟨?_, ?_, ?_, ?_, ?_⟩
  · unfold skillContentChecks
    rw [List.mem_append]
    constructor
    · rintro (hfm | hmem)
      · exact absurd (mem_fmErrsOf hfm) (by decide)
      · obtain ⟨p, hp, he, hfa2, hc⟩ := (sectionChecks_errs_iff _ _ _).mp hmem
        have hpe : p = ("## Failed Attempts", "Failed Attempts section (REQUIRED)") := by
          fin_cases hp
          · exact absurd he (by decide)
          · exact absurd he (by decide)
          · exact absurd he (by decide)
          · rfl
          · exact absurd he (by decide)
        rw [hpe] at hc
        exact hc
    · intro hc
      exact Or.inr ((sectionChecks_errs_iff _ _ _).mpr
        ⟨("## Failed Attempts", "Failed Attempts section (REQUIRED)"),
         by decide, by decide, by decide, hc⟩)
  · have h := warnMem_iff content "## Overview" "Overview table"
      (by decide) (by decide) (by decide) (by decide)
    rwa [show "Missing " ++ "Overview table" = "Missing Overview table" from rfl] at h
  · have h := warnMem_iff content "## When to Use" "When to Use section"
      (by decide) (by decide) (by decide) (by decide)
    rwa [show "Missing " ++ "When to Use section" = "Missing When to Use section" from rfl] at h
  · have h := warnMem_iff content "## Verified Workflow" "Verified Workflow section"
      (by decide) (by decide) (by decide) (by decide)
    rwa [show "Missing " ++ "Verified Workflow section" = "Missing Verified Workflow section"
      from rfl] at h
  · have h := warnMem_iff content "## Results" "Results & Parameters section"
      (by decide) (by decide) (by decide) (by decide)
    rwa [show "Missing " ++ "Results & Parameters section" = "Missing Results & Parameters section"
      from rfl] at h

/-- C3 (counterexample): in c3doc, the Failed Attempts body up to the
next ##-level heading (here: to end of document) contains a pipe, yet
the validator still warns — its split on "##" stops at the "### Attempt"
subsection line, so the examined text misses the table. -/
theorem pipe_check_cut_at_subsection :
    pipeWarning ∈ (skillContentChecks c3doc).2 ∧
    strContains (specFailedBody c3doc) "|" = true := by
  exact ⟨by decide, by rfl⟩

/-- C3 (amended): the warning is emitted iff the heading occurs and the
examined text contains no pipe, where the examined text is the segment
after the first occurrence of "## Failed Attempts" up to its next
occurrence (or end of document), truncated at the first occurrence of
the substring "##" inside it — including a "###" subsection heading,
not only ##-level headings. -/
theorem pipe_warning_examined_text (content : String) :
    (pipeWarning ∈ (skillContentChecks content).2 ↔
      (strContains content "## Failed Attempts" = true ∧
       strContains (examinedSegment content) "|" = false)) ∧
    (strContains content "## Failed Attempts" = true →
      failedAttemptsExamined content = examinedSegment content) := by
  constructor
  · unfold skillContentChecks
    rw [List.mem_append]
    constructor
    · rintro (hmem | hpipe)
      · obtain ⟨p, hp, he, -, -⟩ := (sectionChecks_warns_iff _ _ _).mp hmem
        fin_cases hp
        · exact absurd he (by decide)
        · exact absurd he (by decide)
        · exact absurd he (by decide)
        · exact absurd he (by decide)
        · exact absurd he (by decide)
      · have hm := pipeWarning_mem_pipeCheckWarns.mp hpipe
        refine ⟨hm.1, ?_⟩
        rw [← failedAttemptsExamined_eq hm.1]
        exact hm.2
    · rintro ⟨h1, h2⟩
      refine Or.inr (pipeWarning_mem_pipeCheckWarns.mpr ⟨h1, ?_⟩)
      rw [failedAttemptsExamined_eq h1]
      exact h2
  · intro h
    exact failedAttemptsExamined_eq h

open ValidatePlugins in
/-- Witness for the amended C3 at the concrete document c3doc. -/
theorem pipe_warning_examined_text_witness :
    failedAttemptsExamined c3doc = examinedSegment c3doc ∧
    (pipeWarning ∈ (skillContentChecks c3doc).2 ↔
      (strContains c3doc "## Failed Attempts" = true ∧
       strContains (examinedSegment c3doc) "|" = false)) :=
  ⟨(pipe_warning_examined_text c3doc).2 (by decide),
   (pipe_warning_examined_text c3doc).1⟩

open ValidatePlugins in
/-- The results of validateAll hold an invalid entry iff some discovered
plugin validates to an invalid result. -/
theorem validateAll_invalid_iff :
    ∀ (ps : List (String × FsNode)) (rs : List ValidationResult),
      validateAll ps = Except.ok rs →
      ((∃ r ∈ rs, r.is_valid = false) ↔
        ∃ p ∈ ps, ∃ r, validate_plugin p.1 p.2 = Except.ok r ∧ r.is_valid = false)
  | [], rs, h => by
    simp only [validateAll] at h
    injection h with h
    subst h
    simp
  | p :: rest, rs, h => by
    simp only [validateAll] at h
    cases hv : validate_plugin p.1 p.2 with
    | error e =>
      rw [hv] at h
      exact Except.noConfusion h
    | ok r =>
      rw [hv] at h
      cases hrest : validateAll rest with
      | error e =>
        rw [hrest] at h
        exact Except.noConfusion h
      | ok rs' =>
        rw [hrest] at h
        have h2 : Except.ok (r :: rs') = Except.ok rs := h
        injection h2 with h2
        subst h2
        have ih := validateAll_invalid_iff rest rs' hrest
        constructor
        · rintro ⟨r', hr', hval⟩
          rcases List.mem_cons.mp hr' with rfl | hmem
          · exact ⟨p, List.mem_cons_self _ _, r', hv, hval⟩
          · obtain ⟨q, hq, r2, hr2, hval2⟩ := ih.mp ⟨r', hmem, hval⟩
            exact ⟨q, List.mem_cons_of_mem _ hq, r2, hr2, hval2⟩
        · rintro ⟨q, hq, r2, hr2, hval2⟩
          rcases List.mem_cons.mp hq with rfl | hmem
          · rw [hv] at hr2
            injection hr2 with hr2
            exact ⟨r, List.mem_cons_self _ _, by rw [hr2]; exact hval2⟩
          · obtain ⟨r', hr', hval'⟩ := ih.mpr ⟨q, hmem, r2, hr2, hval2⟩
            exact ⟨r', List.mem_cons_of_mem _ hr', hval'⟩

/-- C2: a validation result is valid iff its error list is empty, and —
when main runs on an existing root and terminates normally — the exit
code is nonzero iff some discovered plugin is invalid. -/
theorem validator_exit_iff_some_invalid :
    (∀ (name : String) (d : FsNode) (r : ValidationResult),
        validate_plugin name d = Except.ok r → (r.is_valid = true ↔ r.errors = [])) ∧
    (∀ (root : FsNode) (plugins : List (String × FsNode)) (code : Int),
        find_plugins (some root) = Except.ok plugins →
        ValidatePlugins.main (some root) = Except.ok code →
        (code ≠ 0 ↔
          ∃ p ∈ plugins, ∃ r, validate_plugin p.1 p.2 = Except.ok r ∧ r.is_valid = false)) := by
  constructor
  · intro name d r h
    unfold validate_plugin at h
    cases hj : validate_plugin_json d with
    | error e =>
      rw [hj] at h
      exact Except.noConfusion h
    | ok t =>
      rw [hj] at h
      obtain ⟨jsonErrs, jsonWarns, data⟩ := t
      have h2 : Except.ok
          { pluginName := name,
            is_valid := (jsonErrs ++ (validate_skill_md d).1).isEmpty,
            errors := jsonErrs ++ (validate_skill_md d).1,
            warnings := jsonWarns ++ (validate_skill_md d).2 } = Except.ok r := h
      injection h2 with h2
      subst h2
      simp [List.isEmpty_iff]
  · intro root plugins code hf hm
    simp only [ValidatePlugins.main] at hm
    rw [hf] at hm
    have hm2 : (if plugins.isEmpty = true then (pure 0 : Except PyErr Int)
        else do
          let results ← validateAll plugins
          pure (if (results.filter (fun r => !r.is_valid)).length > 0 then (1 : Int) else 0))
        = Except.ok code := hm
    by_cases hemp : plugins.isEmpty = true
    · rw [if_pos hemp] at hm2
      have hm3 : Except.ok (0 : Int) = Except.ok code := hm2
      injection hm3 with hm3
      subst hm3
      rw [List.isEmpty_iff] at hemp
      subst hemp
      simp
    · rw [if_neg hemp] at hm2
      cases hva : validateAll plugins with
      | error e =>
        rw [hva] at hm2
        exact Except.noConfusion hm2
      | ok results =>
        rw [hva] at hm2
        have hm3 : Except.ok (if (results.filter (fun r => !r.is_valid)).length > 0
            then (1 : Int) else 0) = Except.ok code := hm2
        injection hm3 with hm3
        rw [← validateAll_invalid_iff plugins results hva]
        constructor
        · intro hcode
          by_contra hnone
          push_neg at hnone
          have hfilter : results.filter (fun r => !r.is_valid) = [] := by
            rw [List.filter_eq_nil_iff]
            intro a ha
            have := hnone a ha
            simp [this]
          rw [hfilter] at hm3
          simp at hm3
          omega
        · rintro ⟨r, hr, hval⟩
          have hpos : 0 < (results.filter (fun r => !r.is_valid)).length := by
            apply List.length_pos.mpr
            intro hnil
            have := List.filter_eq_nil_iff.mp hnil r hr
            simp [hval] at this
          rw [if_pos hpos] at hm3
          omega

open FixValidationWarnings in
/-- C8 (counterexample): the section patcher is not idempotent — on a
document ending in a "## Workflow " line with trailing whitespace and no
Results section, the first run's Results append rstrips the document,
creating an exact "## Workflow" line; the second run renames it and
reports a modification (and would write the file again). -/
theorem fix_warnings_not_idempotent :
    (fix_skill_file (fix_skill_file c8doc).2.2).1 = true ∧
    (fix_skill_file (fix_skill_file c8doc).2.2).2.1
      = ["Renamed ## Workflow to ## Verified Workflow"] := by
  set_option maxRecDepth 100000 in
  exact ⟨by decide, by decide⟩

open FixValidationWarnings in
/-- C8 (amended): the patcher writes the file back exactly when the
patched content differs from the original content; idempotence does not
hold in general (see the counterexample). -/
theorem fix_warnings_writes_iff_changed (content : String) :
    (fix_skill_file content).1 = true ↔ (fix_skill_file content).2.2 ≠ content := by
  unfold fix_skill_file
  by_cases h : (applyFixes content).1 = content
  · simp [h]
  · simp [h]

open FixFailedAttemptsTables in
/-- C9: on the claim's concrete scenario the patcher inserts the generic
placeholder table, not a table whose first data row references "Wrong
config": the section regex stops at `^##`, which the "### Attempt 1"
line itself matches, so extract_attempts_from_subsections never sees the
subsection heading despite being written to extract exactly those. -/
theorem fix_tables_generic_row_not_subsection_title :
    fix_skill_file c9doc = (true, "Added summary table", c9fixed) ∧
    strContains c9fixed "| See detailed notes below |" = true ∧
    strContains c9fixed "| 1. Wrong config" = false := by
  set_option maxRecDepth 100000 in
  exact ⟨by decide, by decide, by decide⟩

/-- C5 (counterexample): on a root path that does not exist, neither
find_plugins variant returns an empty sequence — both raise. -/
theorem find_plugins_missing_root_not_empty :
    ¬(ValidatePlugins.find_plugins none = Except.ok []) ∧
    ¬(GenerateMarketplace.find_plugins none = Except.ok []) :=
  ⟨fun h => Except.noConfusion h, fun h => Except.noConfusion h⟩

/-- C5 (amended): on a root path that does not exist, both find_plugins
variants raise FileNotFoundError (Path.iterdir has no existence guard);
the callers check existence first and never reach find_plugins with a
missing root. -/
theorem find_plugins_missing_root_raises :
    ValidatePlugins.find_plugins none = Except.error PyErr.fileNotFoundError ∧
    GenerateMarketplace.find_plugins none = Except.error PyErr.fileNotFoundError :=
  ⟨rfl, rfl⟩

open GenerateMarketplace in
/-- C6 (counterexample): a present-but-unparseable manifest yields the
same result as an absent manifest — Except.ok none in both cases, so the
parse error is not distinct from the "no metadata" result. -/
theorem load_metadata_parse_error_indistinct :
    load_plugin_metadata "tooling" "plugins/tooling/demo" (invalidManifestDir "not json")
      = Except.ok none ∧
    load_plugin_metadata "tooling" "plugins/tooling/demo" absentManifestDir
      = Except.ok none :=
  ⟨rfl, rfl⟩

open GenerateMarketplace in
/-- C6 (amended): load_plugin_metadata returns the "no metadata" result
None both when the manifest file is absent and when it is present but not
parseable as JSON; the JSONDecodeError is swallowed, not surfaced. -/
theorem load_metadata_none_absent_and_unparseable (parent path : String) (d : FsNode) :
    (d.childPath [".claude-plugin", "plugin.json"] = none →
      load_plugin_metadata parent path d = Except.ok none) ∧
    (∀ text, d.childPath [".claude-plugin", "plugin.json"] = some (.file text none) →
      load_plugin_metadata parent path d = Except.ok none) := by
  constructor
  · intro h
    unfold load_plugin_metadata
    rw [h]
  · intro text h
    unfold load_plugin_metadata
    rw [h]

open GenerateMarketplace in
/-- Witness for the amended C6 at concrete directories. -/
theorem load_metadata_none_absent_and_unparseable_witness :
    load_plugin_metadata "tooling" "plugins/tooling/demo" absentManifestDir
      = Except.ok none ∧
    load_plugin_metadata "tooling" "plugins/tooling/demo" (invalidManifestDir "oops")
      = Except.ok none :=
  ⟨(load_metadata_none_absent_and_unparseable "tooling" "plugins/tooling/demo"
      absentManifestDir).1 (by rfl),
   (load_metadata_none_absent_and_unparseable "tooling" "plugins/tooling/demo"
      (invalidManifestDir "oops")).2 "oops" (by rfl)⟩

open GenerateMarketplace in
/-- C7: whenever generate_marketplace succeeds, its plugins array is
sorted ascending by the (category, name) pair under ordinary string
comparison, and a second run over the unchanged tree produces the
identical plugins array. -/
theorem marketplace_sorted_and_deterministic (pdn : String) (root : Option FsNode)
    (m : Marketplace) (h : generate_marketplace pdn root = Except.ok m) :
    List.Sorted entryLe m.plugins ∧
    (∀ m2, generate_marketplace pdn root = Except.ok m2 → m2.plugins = m.plugins) := by
  constructor
  · unfold generate_marketplace at h
    cases hf : GenerateMarketplace.find_plugins root with
    | error e => rw [hf] at h; exact Except.noConfusion h
    | ok plugins =>
      rw [hf] at h
      have h1 : (do
          let entries ← buildEntries pdn plugins
          let sorted ← pySortEntries entries
          pure (Marketplace.mk "ProjectMnemosyne" "HomericIntelligence"
            "https://github.com/HomericIntelligence"
            "Skills marketplace for the HomericIntelligence agentic ecosystem"
            "1.0.0" sorted) : Except PyErr Marketplace) = Except.ok m := h
      cases hb : buildEntries pdn plugins with
      | error e => rw [hb] at h1; exact Except.noConfusion h1
      | ok entries =>
        rw [hb] at h1
        have h2 : (do
            let sorted ← pySortEntries entries
            pure (Marketplace.mk "ProjectMnemosyne" "HomericIntelligence"
              "https://github.com/HomericIntelligence"
              "Skills marketplace for the HomericIntelligence agentic ecosystem"
              "1.0.0" sorted) : Except PyErr Marketplace) = Except.ok m := h1
        unfold pySortEntries at h2
        by_cases hstr : entries.all isStrKeyed = true
        · rw [if_pos hstr] at h2
          have h3 : Except.ok (Marketplace.mk "ProjectMnemosyne" "HomericIntelligence"
              "https://github.com/HomericIntelligence"
              "Skills marketplace for the HomericIntelligence agentic ecosystem"
              "1.0.0" (entries.insertionSort entryLe)) = Except.ok m := h2
          injection h3 with h3
          rw [← h3]
          exact List.sorted_insertionSort entryLe entries
        · rw [if_neg hstr] at h2
          exact Except.noConfusion h2
  · intro m2 h2
    rw [h] at h2
    injection h2 with h2
    rw [h2]

open GenerateMarketplace in
/-- Witness for C7 at a concrete tree whose listing order disagrees with
the sort order. -/
theorem marketplace_sorted_and_deterministic_witness :
    List.Sorted entryLe gmExpected.plugins ∧
    (∀ m2, generate_marketplace "plugins" (some gmRoot) = Except.ok m2 →
      m2.plugins = gmExpected.plugins) :=
  marketplace_sorted_and_deterministic "plugins" (some gmRoot) gmExpected (by rfl)

/-- Witness for C2 at a concrete tree holding one invalid plugin. -/
theorem validator_exit_iff_some_invalid_witness :
    ((demoResult.is_valid = true) ↔ demoResult.errors = []) ∧
    ((1 : Int) ≠ 0 ↔
      ∃ p ∈ demoPlugins, ∃ r, validate_plugin p.1 p.2 = Except.ok r ∧ r.is_valid = false) :=
  ⟨validator_exit_iff_some_invalid.1 "demo" demoDir demoResult (by rfl),
   validator_exit_iff_some_invalid.2 demoRoot demoPlugins 1 (by rfl) (by rfl)⟩

end Mnemosyne
